import Mathlib

/-!
Shallow embedding of the "Earnings API" service: a referral-earnings and
withdrawal backend.  Rows of the relational store become Lean structures,
each HTTP handler becomes a pure function from a request and a store state
to a response and a new store state.  Monetary amounts are rationals
(the service manipulates exact decimal amounts), statuses are the strings
the store holds, and `NOW()` / generated ids are passed as parameters.
-/

namespace Earnings

/-- A `referral_links` row: a link owned by a user for one operator. -/
structure ReferralLink where
  id : Nat
  user_id : Nat
  operator : String
deriving DecidableEq, Repr

/-- A `referrals` row: a submitted lead tied to a referral link, with a
status string (`"pending"`, `"approved"`, `"rejected"`). -/
structure Referral where
  id : Nat
  referral_link_id : Nat
  status : String
deriving DecidableEq, Repr

/-- A `withdrawals` row, including the audit fields written by the admin
resolution endpoint. -/
structure Withdrawal where
  id : Nat
  user_id : Nat
  operator : String
  requested_amount : Rat
  status : String
  requested_at : Nat
  processed_at : Option Nat
  admin_notes : Option String
  rejection_reason : Option String
  processed_by_admin : Option String
deriving DecidableEq, Repr

/-- An `earnings_adjustments` row: a signed manual correction for a user. -/
structure Adjustment where
  user_id : Nat
  amount : Rat
deriving DecidableEq, Repr

/-- The relational store state the handlers read and write. -/
structure Store where
  referral_links : List ReferralLink
  referrals : List Referral
  withdrawals : List Withdrawal
  adjustments : List Adjustment
deriving DecidableEq, Repr

/-- The operator enum the service displays (`operators: ['Airtel', 'Vi', 'Jio']`). -/
def knownOperators : List String := ["Airtel", "Vi", "Jio"]

/-- Two-digit zero padding for the fractional part of a formatted amount. -/
def pad2 (n : Nat) : String :=
  if n < 10 then "0" ++ toString n else toString n

/-- JavaScript's `x.toFixed(2)`: round `x * 100` to the nearest integer
(ties away from the decimal, i.e. half-up on the absolute value), then
print with exactly two fraction digits. -/
def toFixed2 (q : Rat) : String :=
  let a : Rat := if q < 0 then -q else q
  let cents : Nat := (a * 100 + 1 / 2).floor.toNat
  (if q < 0 then "-" else "") ++ toString (cents / 100) ++ "." ++ pad2 (cents % 100)

/-- Referrals joined to one referral link
(`ON rl.id = r.referral_link_id`). -/
def referralsOf (s : Store) (rl : ReferralLink) : List Referral :=
  s.referrals.filter (fun r => r.referral_link_id == rl.id)

/-- Aggregate `SUM(CASE WHEN r.status = 'approved' THEN 100 ELSE 0 END)`
over the referrals joined to one link. -/
def linkCaseSum (s : Store) (rl : ReferralLink) : Rat :=
  ((referralsOf s rl).map
    (fun r => if r.status == "approved" then (100 : Rat) else 0)).sum

/-- Aggregate `COUNT(CASE WHEN r.status = 'approved' THEN 1 END)` over the
referrals joined to one link. -/
def linkApprovedCount (s : Store) (rl : ReferralLink) : Nat :=
  ((referralsOf s rl).filter (fun r => r.status == "approved")).length

/-- Aggregate `COUNT(r.id)`: the matched (non-null) join rows for one link. -/
def linkReferralCount (s : Store) (rl : ReferralLink) : Nat :=
  (referralsOf s rl).length

/-- The referral links belonging to a user (`WHERE rl.user_id = $1`). -/
def userLinks (s : Store) (uid : Nat) : List ReferralLink :=
  s.referral_links.filter (fun rl => rl.user_id == uid)

/-- Value `total_earned` of the request-withdrawal endpoint: the inner join
of the user's links with their referrals, summing the 100-per-approved CASE. -/
def totalEarnedRW (s : Store) (uid : Nat) : Rat :=
  ((userLinks s uid).map (linkCaseSum s)).sum

/-- The deduction-set predicate:
`status IN ('pending', 'approved', 'paid')`. -/
def deducts (uid : Nat) (w : Withdrawal) : Bool :=
  w.user_id == uid &&
    (w.status == "pending" || w.status == "approved" || w.status == "paid")

/-- Query `SELECT COALESCE(SUM(requested_amount), 0) ... WHERE user_id = $1
AND status IN ('pending', 'approved', 'paid')` over a withdrawals table. -/
def withdrawnSumList (l : List Withdrawal) (uid : Nat) : Rat :=
  ((l.filter (deducts uid)).map (fun w => w.requested_amount)).sum

/-- Value `total_withdrawn` as both the dashboard and the request-withdrawal
endpoint query it. -/
def totalWithdrawnQ (s : Store) (uid : Nat) : Rat :=
  withdrawnSumList s.withdrawals uid

/-- The available balance as the request-withdrawal endpoint computes it:
`totalEarned - totalWithdrawn`. -/
def rwAvailableBalance (s : Store) (uid : Nat) : Rat :=
  totalEarnedRW s uid - totalWithdrawnQ s uid

/-- The pending-duplicate check: `SELECT id FROM withdrawals WHERE
user_id = $1 AND status = 'pending'` returned at least one row. -/
def hasPendingWithdrawal (s : Store) (uid : Nat) : Bool :=
  !(s.withdrawals.filter
      (fun w => w.user_id == uid && w.status == "pending")).isEmpty

/-- One row of the dashboard's `GROUP BY rl.operator` result. -/
structure EarningsRow where
  operator : String
  total_referrals : Nat
  approved_referrals_count : Nat
  total_amount : Rat
deriving DecidableEq, Repr

/-- The dashboard's grouped earnings query: one row per distinct operator
among the user's links, aggregating the left-joined referrals.  (A link with
no referrals contributes a null-extended row, which adds 0 to every
aggregate shown here.) -/
def dashboardRows (s : Store) (uid : Nat) : List EarningsRow :=
  let links := userLinks s uid
  ((links.map (fun rl => rl.operator)).dedup).map (fun op =>
    let opLinks := links.filter (fun rl => rl.operator == op)
    { operator := op
      total_referrals := (opLinks.map (linkReferralCount s)).sum
      approved_referrals_count := (opLinks.map (linkApprovedCount s)).sum
      total_amount := (opLinks.map (linkCaseSum s)).sum })

/-- Value `totalLifetimeEarnings`: the dashboard's fold adding up
`row.total_amount` over the grouped rows. -/
def dashboardTotalQ (s : Store) (uid : Nat) : Rat :=
  ((dashboardRows s uid).map (fun row => row.total_amount)).sum

/-- Value `currentBalance` as the dashboard computes it:
`totalLifetimeEarnings - totalWithdrawn`. -/
def dashboardCurrentBalanceQ (s : Store) (uid : Nat) : Rat :=
  dashboardTotalQ s uid - totalWithdrawnQ s uid

/-- The dashboard endpoint's JSON response (success case). -/
structure DashboardResp where
  totalEarnings : String
  currentBalance : String
  totalWithdrawn : String
  userEarnings : List EarningsRow
deriving DecidableEq, Repr

/-- Endpoint `GET /api/earnings/dashboard/:userId` (the variant with the
balance fields). -/
def dashboard (s : Store) (uid : Nat) : DashboardResp :=
  { totalEarnings := toFixed2 (dashboardTotalQ s uid)
    currentBalance := toFixed2 (dashboardCurrentBalanceQ s uid)
    totalWithdrawn := toFixed2 (totalWithdrawnQ s uid)
    userEarnings := dashboardRows s uid }

/-- Request body of the withdrawal endpoints: `{operator, requestedAmount,
uid}`.  A missing operator arrives as the empty (falsy) string; the
requested amount is carried as `parseFloat`'s result, `none` standing for
`NaN` (missing or unparsable); a missing uid is `none`. -/
structure RWRequest where
  operator : String
  requestedAmount : Option Rat
  uid : Option Nat
deriving DecidableEq, Repr

/-- JavaScript truthiness of a string field: only the empty string is falsy. -/
def strFalsy (s : String) : Bool := s == ""

/-- JavaScript truthiness of a numeric id field: missing or zero is falsy. -/
def natFalsy : Option Nat → Bool
  | none => true
  | some n => n == 0

/-- JavaScript truthiness of a raw numeric field: missing (or NaN) or zero
is falsy. -/
def ratFalsy : Option Rat → Bool
  | none => true
  | some q => q == 0

/-- Response of the strict request-withdrawal endpoint: either a 4xx/5xx
error body `{success: false, error: msg}` or `{success: true, withdrawal,
remainingBalance}`. -/
inductive RWResult where
  | error (code : Nat) (msg : String)
  | ok (withdrawal : Withdrawal) (remainingBalance : String)
deriving DecidableEq, Repr

/-- Test whether a request-withdrawal response is an error response. -/
def RWResult.isError : RWResult → Bool
  | .error _ _ => true
  | .ok _ _ => false

/-- Endpoint `POST /api/earnings/request-withdrawal` of the strict variant
(`src/server.js`): validate presence of `operator` and `uid`, parse the
amount and require it positive, reject when a pending withdrawal exists,
reject when the amount exceeds the available balance, otherwise insert a
new `pending` row and return it with the remaining balance.  `newId` is the
id the store assigns to the inserted row and `now` the insertion clock. -/
def requestWithdrawal (s : Store) (req : RWRequest) (newId now : Nat) :
    RWResult × Store :=
  if strFalsy req.operator || natFalsy req.uid then
    (.error 400 "Missing required fields", s)
  else
    match req.requestedAmount with
    | none => (.error 400 "Invalid withdrawal amount", s)
    | some amount =>
      if amount ≤ 0 then (.error 400 "Invalid withdrawal amount", s)
      else
        let uid := req.uid.getD 0
        if hasPendingWithdrawal s uid then
          (.error 400 "You already have a pending withdrawal request. Please wait for it to be processed.", s)
        else
          let availableBalance := rwAvailableBalance s uid
          if availableBalance < amount then
            (.error 400 ("Insufficient balance. Available: ₹" ++ toFixed2 availableBalance), s)
          else
            let w : Withdrawal :=
              { id := newId, user_id := uid, operator := req.operator
                requested_amount := amount, status := "pending"
                requested_at := now, processed_at := none, admin_notes := none
                rejection_reason := none, processed_by_admin := none }
            (.ok w (toFixed2 (availableBalance - amount)),
              { s with withdrawals := s.withdrawals ++ [w] })

/-- Response of the weak request-withdrawal endpoint (`src/api/server.js`):
an error body or the created row. -/
inductive RWApiResult where
  | error (code : Nat) (msg : String)
  | ok (withdrawal : Withdrawal)
deriving DecidableEq, Repr

/-- Test whether a weak-variant response is the success response. -/
def RWApiResult.isOk : RWApiResult → Bool
  | .error _ _ => false
  | .ok _ => true

/-- Endpoint `POST /api/earnings/request-withdrawal` of the weak variant
(`src/api/server.js`): only presence of the three fields is checked; the
row is inserted with no pending-withdrawal check and no balance check. -/
def requestWithdrawalApi (s : Store) (req : RWRequest) (newId now : Nat) :
    RWApiResult × Store :=
  if strFalsy req.operator || ratFalsy req.requestedAmount || natFalsy req.uid then
    (.error 400 "Missing required fields", s)
  else
    let w : Withdrawal :=
      { id := newId, user_id := req.uid.getD 0, operator := req.operator
        requested_amount := req.requestedAmount.getD 0, status := "pending"
        requested_at := now, processed_at := none, admin_notes := none
        rejection_reason := none, processed_by_admin := none }
    (.ok w, { s with withdrawals := s.withdrawals ++ [w] })

/-- Request body of the admin resolution endpoint:
`{status, adminNotes, rejectionReason}`. -/
structure ApproveReq where
  status : String
  adminNotes : Option String
  rejectionReason : Option String
deriving DecidableEq, Repr

/-- Response of the admin resolution endpoint. -/
inductive ApproveResult where
  | error (code : Nat) (msg : String)
  | ok (message : String) (withdrawal : Option Withdrawal)
deriving DecidableEq, Repr

/-- Test whether an admin-resolution response is the success response. -/
def ApproveResult.isOk : ApproveResult → Bool
  | .error _ _ => false
  | .ok _ _ => true

/-- Row update performed by `UPDATE withdrawals SET status = $1,
admin_notes = $2, rejection_reason = $3, processed_at = NOW(),
processed_by_admin = $4 WHERE id = $5`. -/
def resolveRow (wid : Nat) (st : String) (notes reason : Option String)
    (admin : String) (now : Nat) (w : Withdrawal) : Withdrawal :=
  if w.id == wid then
    { w with status := st, admin_notes := notes, rejection_reason := reason
             processed_at := some now, processed_by_admin := some admin }
  else w

/-- Endpoint `PUT /api/admin/earnings/approve-withdrawal/:withdrawalId`:
reject any status outside `{'approved', 'rejected'}` with a 400 and no
store change; otherwise update the matching withdrawal row in place and
return it. -/
def approveWithdrawal (s : Store) (wid : Nat) (req : ApproveReq)
    (admin : String) (now : Nat) : ApproveResult × Store :=
  if ["approved", "rejected"].contains req.status then
    let ws := s.withdrawals.map
      (resolveRow wid req.status req.adminNotes req.rejectionReason admin now)
    (.ok ("Withdrawal " ++ req.status) ((ws.filter (fun w => w.id == wid)).head?),
      { s with withdrawals := ws })
  else
    (.error 400 "Invalid status", s)

/-- Fold applying a sequence of admin-resolution calls
`(withdrawalId, body, admin, now)` to the store. -/
def applyResolutions (s : Store) : List (Nat × ApproveReq × String × Nat) → Store
  | [] => s
  | c :: cs => applyResolutions (approveWithdrawal s c.1 c.2.1 c.2.2.1 c.2.2.2).2 cs

/-- Sum of a user's manual adjustments:
`COALESCE((SELECT SUM(amount) FROM earnings_adjustments WHERE user_id = $1), 0)`. -/
def adjustmentsSum (s : Store) (uid : Nat) : Rat :=
  ((s.adjustments.filter (fun a => a.user_id == uid)).map (fun a => a.amount)).sum

/-- One row of the adjustments-variant dashboard response. -/
structure OpRow where
  operator : String
  total_amount : Rat
  approved_referrals_count : Nat
deriving DecidableEq, Repr

/-- One branch of the adjustments-variant dashboard's UNION query: the CASE
sum over the user's links for one (lower-cased) operator, plus the user's
full adjustments sum, labelled with the display name. -/
def opRow001 (s : Store) (uid : Nat) (display lower : String) : OpRow :=
  let opLinks := s.referral_links.filter
    (fun rl => rl.user_id == uid && rl.operator == lower)
  { operator := display
    total_amount := (opLinks.map (linkCaseSum s)).sum + adjustmentsSum s uid
    approved_referrals_count := (opLinks.map (linkApprovedCount s)).sum }

/-- Endpoint `GET /api/earnings/dashboard/:userId` of the adjustments
variant (`src/unnamed/part_001`): three UNIONed per-operator rows. -/
def dashboard001 (s : Store) (uid : Nat) : List OpRow :=
  [opRow001 s uid "Airtel" "airtel", opRow001 s uid "Vi" "vi",
   opRow001 s uid "Jio" "jio"]

/-- Cell values the exporter meets: SQL NULL (JavaScript `null`), strings,
and integer numbers. -/
inductive JValue where
  | null
  | str (s : String)
  | int (n : Int)
deriving DecidableEq, Repr

/-- One fetched record: an ordered field list, as a JavaScript object's
own keys enumerate. -/
abbrev DataRecord := List (String × JValue)

/-- Property access `row[header]`: the first field with that key, `none`
standing for JavaScript `undefined`. -/
def lookupField (r : DataRecord) (k : String) : Option JValue :=
  (List.find? (fun kv => kv.1 == k) r).map (fun kv => kv.2)

/-- Serialization of one CSV cell: `null`/`undefined` become the empty
string; a string containing a comma is wrapped in double quotes (nothing
else is escaped); any other value is printed as JavaScript stringifies it
in `Array.prototype.join`. -/
def cellString : Option JValue → String
  | none => ""
  | some .null => ""
  | some (.str v) => if v.data.contains ',' then "\"" ++ v ++ "\"" else v
  | some (.int n) => toString n

/-- JavaScript `Array.prototype.join(sep)`. -/
def joinSep (sep : String) : List String → String
  | [] => ""
  | [x] => x
  | x :: y :: xs => x ++ sep ++ joinSep sep (y :: xs)

/-- Column keys `Object.keys(data[0])` of a non-empty data set. -/
def csvHeaders (data : List DataRecord) : List String :=
  match data with
  | [] => []
  | first :: _ => first.map (fun kv => kv.1)

/-- One emitted CSV data row: the first record's keys looked up in this
record, serialized and comma-joined. -/
def csvRow (headers : List String) (r : DataRecord) : String :=
  joinSep "," (headers.map (fun h => cellString (lookupField r h)))

/-- Function `convertToCSV`: empty input gives the empty string; otherwise
the comma-joined header row followed by one row per record, all joined with
newlines. -/
def convertToCSV (data : List DataRecord) : String :=
  match data with
  | [] => ""
  | first :: rest =>
    let headers := first.map (fun kv => kv.1)
    joinSep "\n" (joinSep "," headers :: (first :: rest).map (csvRow headers))

/-- Response of the export endpoint: an explicit `{success: false, error}`
JSON body, or a CSV file attachment. -/
inductive ExportResult where
  | failure (error : String)
  | file (filename : String) (csv : String)
deriving DecidableEq, Repr

/-- Endpoint `GET /api/admin/earnings/export`, after the data set has been
fetched: an empty selection answers `{success: false, error: 'No data to
export'}`; otherwise the CSV text is sent as an attachment. -/
def exportEarnings (data : List DataRecord) (filename : String) : ExportResult :=
  if data.length = 0 then .failure "No data to export"
  else .file filename (convertToCSV data)

/-- Number of newline characters in a string. -/
def newlineCount (s : String) : Nat := s.data.count '\n'

/-- Number of text lines of a string: one more than its newline count. -/
def lineCount (s : String) : Nat := newlineCount s + 1

/-- Count of the user's approved referrals, summed over the user's links
(the spec's `count(approved referrals)` unit that earns the fixed reward). -/
def approvedReferralPairs (s : Store) (uid : Nat) : Nat :=
  ((userLinks s uid).map (linkApprovedCount s)).sum

/-- Lifetime earnings as the spec's formula words it: the fixed reward of
100 currency units per approved referral of the user. -/
def specLifetimeEarnings (s : Store) (uid : Nat) : Rat :=
  100 * (approvedReferralPairs s uid : Rat)

/-- Available balance as the spec's formula words it:
`lifetime_earnings(U) - Σ(requested_amount of withdrawals in
{pending, approved, paid})`. -/
def specAvailableBalance (s : Store) (uid : Nat) : Rat :=
  specLifetimeEarnings s uid - withdrawnSumList s.withdrawals uid

/-- Number of the user's pending withdrawals in a store. -/
def pendingCount (s : Store) (uid : Nat) : Nat :=
  (s.withdrawals.filter
    (fun w => w.user_id == uid && w.status == "pending")).length

/-- Invariant: every user has at most one pending withdrawal. -/
def atMostOnePending (s : Store) : Prop :=
  ∀ uid, pendingCount s uid ≤ 1

/-- Computation rule for `Rat.floor` through the order characterization. -/
theorem ratFloor_eq {q : Rat} {n : Int} (h1 : (n : Rat) ≤ q) (h2 : q < n + 1) :
    q.floor = n := by
  have h : q.floor = ⌊q⌋ := rfl
  rw [h, Int.floor_eq_iff]
  exact ⟨h1, h2⟩

/-- Formatting rule: a non-negative amount worth `n` rounded cents prints
as its cent count split around the decimal point. -/
theorem toFixed2_of_floor {q : Rat} {n : Nat} (h0 : ¬ q < 0)
    (hf : (q * 100 + 1 / 2).floor = (n : Int)) :
    toFixed2 q = toString (n / 100) ++ "." ++ pad2 (n % 100) := by
  unfold toFixed2
  simp only [if_neg h0, hf, Int.toNat_natCast]
  rfl

/-- Splitting a mapped sum along a Boolean predicate. -/
theorem sum_map_filter_add {α : Type} (p : α → Bool) (f : α → Rat) (xs : List α) :
    ((xs.filter p).map f).sum + ((xs.filter (fun x => !p x)).map f).sum
      = (xs.map f).sum := by
  induction xs with
  | nil => simp
  | cons x xs ih =>
    by_cases h : p x
    · simp only [List.filter_cons, h, if_pos, Bool.not_true, if_neg, List.map_cons,
        List.sum_cons, Bool.false_eq_true, not_false_eq_true, ite_false, ite_true]
      rw [add_assoc, ih]
    · simp only [List.filter_cons, h, Bool.not_false, List.map_cons, List.sum_cons,
        Bool.false_eq_true, not_false_eq_true, ite_false, ite_true]
      rw [add_left_comm, ih]

/-- Summing fiberwise over the distinct keys of a list gives the total sum:
the content of a SQL `GROUP BY` followed by a fold over the groups. -/
theorem sum_fiberwise_eq {α κ : Type} [BEq κ] [LawfulBEq κ] (key : α → κ)
    (f : α → Rat) :
    ∀ (ks : List κ) (xs : List α), ks.Nodup → (∀ x ∈ xs, key x ∈ ks) →
      (ks.map (fun k => ((xs.filter (fun x => key x == k)).map f).sum)).sum
        = (xs.map f).sum := by
  intro ks
  induction ks with
  | nil =>
    intro xs _ hmem
    have hx : xs = [] :=
      List.eq_nil_iff_forall_not_mem.mpr fun x hx => by simpa using hmem x hx
    simp [hx]
  | cons k ks ih =>
    intro xs hnd hmem
    have hk : k ∉ ks := (List.nodup_cons.mp hnd).1
    have hnd' : ks.Nodup := (List.nodup_cons.mp hnd).2
    have hrest : ∀ k' ∈ ks,
        ((xs.filter (fun x => !(key x == k))).filter (fun x => key x == k'))
          = xs.filter (fun x => key x == k') := by
      intro k' hk'
      rw [List.filter_filter]
      apply List.filter_congr
      intro x _
      cases hkx : (key x == k') with
      | false => rfl
      | true =>
        have hxk' : key x = k' := by simpa using hkx
        have : ¬ (key x == k) = true := by
          simp only [beq_iff_eq, hxk']
          intro hcon
          exact hk (hcon ▸ hk')
        simp [this]
    have hmem' : ∀ x ∈ xs.filter (fun x => !(key x == k)), key x ∈ ks := by
      intro x hx
      have hx1 : x ∈ xs := List.mem_of_mem_filter hx
      have hx2 : ¬ (key x == k) = true := by
        have := List.of_mem_filter hx
        simpa using this
      have := hmem x hx1
      rcases List.mem_cons.mp this with h | h
      · exact absurd (by simpa using h) hx2
      · exact h
    calc (((k :: ks).map fun k =>
            ((xs.filter (fun x => key x == k)).map f).sum)).sum
        = ((xs.filter (fun x => key x == k)).map f).sum +
            (ks.map (fun k' =>
              ((xs.filter (fun x => key x == k')).map f).sum)).sum := by
          simp
      _ = ((xs.filter (fun x => key x == k)).map f).sum +
            (ks.map (fun k' =>
              (((xs.filter (fun x => !(key x == k))).filter
                  (fun x => key x == k')).map f).sum)).sum := by
          congr 1
          refine congrArg List.sum (List.map_congr_left ?_)
          intro k' hk'
          rw [hrest k' hk']
      _ = ((xs.filter (fun x => key x == k)).map f).sum +
            ((xs.filter (fun x => !(key x == k))).map f).sum := by
          rw [ih (xs.filter (fun x => !(key x == k))) hnd' hmem']
      _ = (xs.map f).sum := sum_map_filter_add _ f xs

/-- Evaluation of a 100-or-0 CASE sum as 100 times a filtered count. -/
theorem sum_case_eq_count {α : Type} (p : α → Bool) (l : List α) :
    (l.map (fun x => if p x then (100 : Rat) else 0)).sum
      = 100 * ((l.filter p).length : Rat) := by
  induction l with
  | nil => simp
  | cons x xs ih =>
    by_cases h : p x
    · simp only [List.map_cons, List.sum_cons, h, if_pos, List.filter_cons, ite_true,
        ih, List.length_cons]
      push_cast
      ring
    · simp only [List.map_cons, List.sum_cons, h, List.filter_cons,
        Bool.false_eq_true, not_false_eq_true, ite_false, ih]
      ring

/-- Finding under a filter that keeps every possible hit changes nothing. -/
theorem find?_filter_of_imp {α : Type} (q p : α → Bool)
    (h : ∀ x, q x = true → p x = true) :
    ∀ l : List α, (l.filter p).find? q = l.find? q := by
  intro l
  induction l with
  | nil => rfl
  | cons x xs ih =>
    by_cases hp : p x
    · rw [List.filter_cons_of_pos hp]
      by_cases hq : q x
      · rw [List.find?_cons_of_pos _ hq, List.find?_cons_of_pos _ hq]
      · rw [List.find?_cons_of_neg _ hq, List.find?_cons_of_neg _ hq, ih]
    · have hq : ¬ q x = true := fun hqx => hp (h x hqx)
      rw [List.filter_cons_of_neg (by simpa using hp),
        List.find?_cons_of_neg _ hq, ih]

/-- Evaluation of the CASE sum over one link as 100 times its approved
count. -/
theorem linkCaseSum_eq (s : Store) (rl : ReferralLink) :
    linkCaseSum s rl = 100 * (linkApprovedCount s rl : Rat) := by
  unfold linkCaseSum linkApprovedCount
  exact sum_case_eq_count (fun r => r.status == "approved") (referralsOf s rl)

/-- Summed CASE totals over any link list are 100 times the summed
approved counts. -/
theorem sum_caseSums_eq (s : Store) :
    ∀ ls : List ReferralLink,
      (ls.map (linkCaseSum s)).sum
        = 100 * (((ls.map (linkApprovedCount s)).sum : Nat) : Rat) := by
  intro ls
  induction ls with
  | nil => simp
  | cons rl rls ih =>
    simp only [List.map_cons, List.sum_cons, ih, linkCaseSum_eq]
    push_cast
    ring

/-- The dashboard's grouped-by-operator earnings total equals the
request-withdrawal endpoint's ungrouped join total. -/
theorem dashboardTotalQ_eq (s : Store) (uid : Nat) :
    dashboardTotalQ s uid = totalEarnedRW s uid := by
  unfold dashboardTotalQ dashboardRows totalEarnedRW
  simp only [List.map_map, Function.comp]
  exact sum_fiberwise_eq (fun rl => rl.operator) (linkCaseSum s)
    ((userLinks s uid).map (fun rl => rl.operator)).dedup (userLinks s uid)
    (List.nodup_dedup _)
    (fun x hx => List.mem_dedup.mpr (List.mem_map_of_mem _ hx))

/-- The withdrawal endpoint's earnings total equals the spec's lifetime
earnings formula. -/
theorem totalEarnedRW_eq_spec (s : Store) (uid : Nat) :
    totalEarnedRW s uid = specLifetimeEarnings s uid := by
  unfold totalEarnedRW specLifetimeEarnings approvedReferralPairs
  exact sum_caseSums_eq s (userLinks s uid)

/-- Claim C1: for every user, the available balance computed by the service
equals lifetime earnings minus the sum of `requested_amount` over the
user's withdrawals in status `{pending, approved, paid}`, and the dashboard
endpoint and the request-withdrawal endpoint compute this same value from
the same store state. -/
theorem claim_C1_available_balance_consistent (s : Store) (uid : Nat) :
    dashboardCurrentBalanceQ s uid = specAvailableBalance s uid ∧
    rwAvailableBalance s uid = specAvailableBalance s uid ∧
    (dashboard s uid).currentBalance = toFixed2 (specAvailableBalance s uid) := by
  have h1 : dashboardCurrentBalanceQ s uid = specAvailableBalance s uid := by
    unfold dashboardCurrentBalanceQ specAvailableBalance totalWithdrawnQ
    rw [dashboardTotalQ_eq, totalEarnedRW_eq_spec]
  have h2 : rwAvailableBalance s uid = specAvailableBalance s uid := by
    unfold rwAvailableBalance specAvailableBalance totalWithdrawnQ
    rw [totalEarnedRW_eq_spec]
  exact ⟨h1, h2, by rw [dashboard, h1]⟩

/-- The pending row the strict endpoint inserts. -/
def insertedRow (req : RWRequest) (newId now : Nat) (a : Rat) : Withdrawal :=
  { id := newId, user_id := req.uid.getD 0, operator := req.operator
    requested_amount := a, status := "pending", requested_at := now
    processed_at := none, admin_notes := none, rejection_reason := none
    processed_by_admin := none }

/-- Case analysis of the strict request-withdrawal endpoint: every call
either answers an error and leaves the store unchanged, or all four checks
passed and exactly the one new pending row was appended. -/
theorem requestWithdrawal_cases (s : Store) (req : RWRequest) (newId now : Nat) :
    ((requestWithdrawal s req newId now).1.isError = true ∧
      (requestWithdrawal s req newId now).2 = s) ∨
    (∃ a, req.requestedAmount = some a ∧ ¬ a ≤ 0 ∧
      (strFalsy req.operator || natFalsy req.uid) = false ∧
      hasPendingWithdrawal s (req.uid.getD 0) = false ∧
      ¬ rwAvailableBalance s (req.uid.getD 0) < a ∧
      (requestWithdrawal s req newId now).1 =
        .ok (insertedRow req newId now a)
          (toFixed2 (rwAvailableBalance s (req.uid.getD 0) - a)) ∧
      (requestWithdrawal s req newId now).2 =
        { s with withdrawals := s.withdrawals ++ [insertedRow req newId now a] }) := by
  unfold requestWithdrawal
  by_cases h1 : (strFalsy req.operator || natFalsy req.uid) = true
  · left
    rw [if_pos h1]
    exact ⟨rfl, rfl⟩
  · rw [if_neg h1]
    cases hamt : req.requestedAmount with
    | none => left; exact ⟨rfl, rfl⟩
    | some a =>
      dsimp only
      by_cases h2 : a ≤ 0
      · left
        rw [if_pos h2]
        exact ⟨rfl, rfl⟩
      · rw [if_neg h2]
        by_cases h3 : hasPendingWithdrawal s (req.uid.getD 0) = true
        · left
          rw [if_pos h3]
          exact ⟨rfl, rfl⟩
        · rw [if_neg h3]
          by_cases h4 : rwAvailableBalance s (req.uid.getD 0) < a
          · left
            rw [if_pos h4]
            exact ⟨rfl, rfl⟩
          · right
            rw [if_neg h4]
            exact ⟨a, rfl, h2, Bool.not_eq_true _ ▸ h1,
              Bool.not_eq_true _ ▸ h3, h4, rfl, rfl⟩

/-- A store with no rows at all: every user's balance is 0. -/
def emptyStore : Store :=
  { referral_links := [], referrals := [], withdrawals := [], adjustments := [] }

/-- An over-balance withdrawal request: 100 units against a zero balance. -/
def overdrawReq : RWRequest :=
  { operator := "Airtel", requestedAmount := some 100, uid := some 1 }

/-- Claim C2, counterexample: the `src/api/server.js` request-withdrawal
endpoint accepts a request whose amount (100) exceeds the caller's
available balance (0) and inserts a new withdrawal row, so the claim is
false of that endpoint. -/
theorem claim_C2_counterexample :
    specAvailableBalance emptyStore 1 = 0 ∧
    (requestWithdrawalApi emptyStore overdrawReq 1 0).1.isOk = true ∧
    (requestWithdrawalApi emptyStore overdrawReq 1 0).2.withdrawals ≠ [] := by
  refine ⟨?_, ?_, ?_⟩
  · simp [specAvailableBalance, specLifetimeEarnings, approvedReferralPairs,
      withdrawnSumList, userLinks, emptyStore]
  · simp [requestWithdrawalApi, overdrawReq, strFalsy, ratFalsy, natFalsy,
      emptyStore, RWApiResult.isOk]
  · simp [requestWithdrawalApi, overdrawReq, strFalsy, ratFalsy, natFalsy,
      emptyStore]

/-- Claim C2 (amended): in the strict variant (`src/server.js`), every
request-withdrawal call whose requested amount exceeds the available
balance is answered with an error response and inserts no row; the
`src/api/server.js` variant performs no balance check at all. -/
theorem claim_C2_overdraw_rejected (s : Store) (req : RWRequest)
    (newId now uid : Nat) (a : Rat) (huid : req.uid = some uid)
    (hamt : req.requestedAmount = some a)
    (hgt : rwAvailableBalance s uid < a) :
    (requestWithdrawal s req newId now).1.isError = true ∧
    (requestWithdrawal s req newId now).2 = s := by
  rcases requestWithdrawal_cases s req newId now with h | ⟨b, hb, _, _, _, hnotlt, _, _⟩
  · exact h
  · exfalso
    apply hnotlt
    rw [huid, Option.getD_some]
    rw [hamt] at hb
    injection hb with hb
    exact hb ▸ hgt

/-- Witness for the amended claim C2: against an empty store (balance 0),
a strict-variant request for 100 units errors and inserts nothing. -/
theorem claim_C2_overdraw_rejected_witness :
    (requestWithdrawal emptyStore overdrawReq 1 0).1.isError = true ∧
    (requestWithdrawal emptyStore overdrawReq 1 0).2 = emptyStore := by
  apply claim_C2_overdraw_rejected emptyStore overdrawReq 1 0 1 100 rfl rfl
  show rwAvailableBalance emptyStore 1 < 100
  simp [rwAvailableBalance, totalEarnedRW, totalWithdrawnQ, withdrawnSumList,
    userLinks, emptyStore]

/-- Emptiness reading of a clean duplicate-pending check. -/
theorem hasPending_eq_false_iff (s : Store) (uid : Nat) :
    hasPendingWithdrawal s uid = false ↔
      s.withdrawals.filter (fun w => w.user_id == uid && w.status == "pending")
        = [] := by
  simp [hasPendingWithdrawal, List.isEmpty_iff]

/-- A resolved row that shows as pending was already pending (and untouched):
writing any non-pending status never creates a pending row. -/
theorem resolveRow_pending_imp {uid wid : Nat} {st : String}
    (hst : (st == "pending") = false) {notes reason : Option String}
    {admin : String} {now : Nat} (w : Withdrawal)
    (h : ((resolveRow wid st notes reason admin now w).user_id == uid &&
      (resolveRow wid st notes reason admin now w).status == "pending") = true) :
    (w.user_id == uid && w.status == "pending") = true := by
  unfold resolveRow at h
  by_cases hid : (w.id == wid) = true
  · rw [if_pos hid] at h
    simp only [Bool.and_eq_true] at h
    exact absurd h.2 (by simp [hst])
  · rwa [if_neg hid] at h

/-- Resolving a withdrawal with a non-pending status never increases any
user's pending-withdrawal count. -/
theorem pendingCount_resolve_le (uid wid : Nat) {st : String}
    (hst : (st == "pending") = false) (notes reason : Option String)
    (admin : String) (now : Nat) (l : List Withdrawal) :
    ((l.map (resolveRow wid st notes reason admin now)).filter
        (fun w => w.user_id == uid && w.status == "pending")).length
      ≤ (l.filter (fun w => w.user_id == uid && w.status == "pending")).length := by
  rw [← List.countP_eq_length_filter, ← List.countP_eq_length_filter,
    List.countP_map]
  exact List.countP_mono_left fun x _ h => resolveRow_pending_imp hst x h

/-- Claim C3: in the strict variant, a request-withdrawal call from a user
who already has a pending withdrawal is answered with an error response and
inserts no row, and every operation (the request endpoint as well as the
admin resolution endpoint) preserves the invariant that each user has at
most one pending withdrawal. -/
theorem claim_C3_single_pending (s : Store) (req : RWRequest) (newId now : Nat) :
    (∀ uid, req.uid = some uid → hasPendingWithdrawal s uid = true →
      (requestWithdrawal s req newId now).1.isError = true ∧
      (requestWithdrawal s req newId now).2 = s) ∧
    (atMostOnePending s → atMostOnePending (requestWithdrawal s req newId now).2) ∧
    (∀ wid areq admin t, atMostOnePending s →
      atMostOnePending (approveWithdrawal s wid areq admin t).2) := by
  refine ⟨?_, ?_, ?_⟩
  · intro uid huid hpend
    rcases requestWithdrawal_cases s req newId now with h | ⟨a, _, _, _, hclean, _, _, _⟩
    · exact h
    · rw [huid, Option.getD_some] at hclean
      rw [hpend] at hclean
      cases hclean
  · intro hinv
    rcases requestWithdrawal_cases s req newId now
      with ⟨_, hstate⟩ | ⟨a, _, _, _, hclean, _, _, hstate⟩
    · rw [hstate]; exact hinv
    · intro u
      unfold pendingCount
      rw [hstate]
      dsimp only
      rw [List.filter_append, List.length_append]
      by_cases hu : ((insertedRow req newId now a).user_id == u) = true
      · have huid : req.uid.getD 0 = u := by
          have : (insertedRow req newId now a).user_id = req.uid.getD 0 := rfl
          rw [this] at hu
          simpa using hu
      -- the clean check says the user had no pending rows before the insert
        have hempty : s.withdrawals.filter
            (fun w => w.user_id == u && w.status == "pending") = [] := by
          rw [← huid]
          exact (hasPending_eq_false_iff s (req.uid.getD 0)).mp hclean
        rw [hempty]
        simpa using List.length_filter_le _ [insertedRow req newId now a]
      · have hrow : ((insertedRow req newId now a).user_id == u &&
            (insertedRow req newId now a).status == "pending") = false := by
          simp only [Bool.and_eq_false_iff]
          left
          simpa using hu
        rw [List.filter_cons_of_neg (by simp [hrow]), List.filter_nil]
        simpa using hinv u
  · intro wid areq admin t hinv u
    unfold approveWithdrawal
    by_cases hc : (["approved", "rejected"].contains areq.status) = true
    · rw [if_pos hc]
      have hst : (areq.status == "pending") = false := by
        have : areq.status = "approved" ∨ areq.status = "rejected" := by
          simpa [List.contains] using hc
        rcases this with h | h <;> rw [h] <;> decide
      unfold pendingCount
      dsimp only
      exact le_trans
        (pendingCount_resolve_le u wid hst areq.adminNotes areq.rejectionReason
          admin t s.withdrawals)
        (hinv u)
    · rw [if_neg hc]
      exact hinv u

/-- A pending withdrawal of 300 units for user 1, as the store holds it. -/
def pendingRow : Withdrawal :=
  { id := 1, user_id := 1, operator := "Airtel", requested_amount := 300
    status := "pending", requested_at := 0, processed_at := none
    admin_notes := none, rejection_reason := none, processed_by_admin := none }

/-- A store holding exactly one pending withdrawal, for user 1. -/
def pendingStore : Store :=
  { referral_links := [], referrals := [], withdrawals := [pendingRow]
    adjustments := [] }

/-- Witness for claim C3: with a pending withdrawal on file, user 1's next
request errors and the store is unchanged. -/
theorem claim_C3_single_pending_witness :
    (requestWithdrawal pendingStore overdrawReq 2 5).1.isError = true ∧
    (requestWithdrawal pendingStore overdrawReq 2 5).2 = pendingStore :=
  (claim_C3_single_pending pendingStore overdrawReq 2 5).1 1 rfl
    (by simp [hasPendingWithdrawal, pendingStore, pendingRow])

/-- Validity read off the admin endpoint's status guard. -/
theorem approve_status_of_contains {st : String}
    (hc : (["approved", "rejected"].contains st) = true) :
    st = "approved" ∨ st = "rejected" := by
  simpa [List.contains] using hc

/-- Single resolution step: a row that is pending afterwards was exactly
this pending row before the call. -/
theorem approve_pending_mem (s : Store) (wid : Nat) (areq : ApproveReq)
    (admin : String) (now : Nat) :
    ∀ w' ∈ (approveWithdrawal s wid areq admin now).2.withdrawals,
      w'.status = "pending" → w' ∈ s.withdrawals := by
  intro w' hmem hp
  unfold approveWithdrawal at hmem
  by_cases hc : (["approved", "rejected"].contains areq.status) = true
  · rw [if_pos hc] at hmem
    dsimp only at hmem
    obtain ⟨w, hwmem, heq⟩ := List.mem_map.mp hmem
    unfold resolveRow at heq
    by_cases hid : (w.id == wid) = true
    · rw [if_pos hid] at heq
      rw [← heq] at hp
      dsimp only at hp
      rcases approve_status_of_contains hc with h | h <;> rw [h] at hp <;>
        exact absurd hp (by decide)
    · rw [if_neg hid] at heq
      rw [← heq]
      exact hwmem
  · rw [if_neg hc] at hmem
    exact hmem

/-- Iterated resolution steps: a row that is pending after any sequence of
admin resolution calls was already pending before them. -/
theorem applyResolutions_pending_mem :
    ∀ (calls : List (Nat × ApproveReq × String × Nat)) (s : Store),
      ∀ w' ∈ (applyResolutions s calls).withdrawals,
        w'.status = "pending" → w' ∈ s.withdrawals := by
  intro calls
  induction calls with
  | nil => intro s w' h _; exact h
  | cons c cs ih =>
    intro s w' h hp
    exact approve_pending_mem s c.1 c.2.1 c.2.2.1 c.2.2.2 w' (ih _ w' h hp) hp

/-- Claim C4: withdrawal status transitions through the admin resolution
endpoint are one-way from pending.  Every row the endpoint touches receives
a status in `{approved, rejected}` (never `pending`, never `paid`); a
successful approval answers success, sets the row's status to `approved`
and stamps `processed_at`; and no sequence of calls to this endpoint can
return a withdrawal to status `pending`. -/
theorem claim_C4_oneway_transitions (s : Store) (wid : Nat) (areq : ApproveReq)
    (admin : String) (now : Nat) :
    (∀ w' ∈ (approveWithdrawal s wid areq admin now).2.withdrawals,
        w' ∈ s.withdrawals ∨
        (w'.status = areq.status ∧
          (areq.status = "approved" ∨ areq.status = "rejected"))) ∧
    (areq.status = "approved" →
      (approveWithdrawal s wid areq admin now).1.isOk = true ∧
      ∀ w' ∈ (approveWithdrawal s wid areq admin now).2.withdrawals,
        w'.id = wid → w'.status = "approved" ∧ w'.processed_at = some now) ∧
    (∀ w' ∈ (approveWithdrawal s wid areq admin now).2.withdrawals,
        w'.status = "pending" → w' ∈ s.withdrawals) ∧
    (∀ calls : List (Nat × ApproveReq × String × Nat),
      ∀ w' ∈ (applyResolutions s calls).withdrawals,
        w'.status = "pending" → w' ∈ s.withdrawals) := by
  refine ⟨?_, ?_, approve_pending_mem s wid areq admin now,
    fun calls => applyResolutions_pending_mem calls s⟩
  · intro w' hmem
    unfold approveWithdrawal at hmem
    by_cases hc : (["approved", "rejected"].contains areq.status) = true
    · rw [if_pos hc] at hmem
      dsimp only at hmem
      obtain ⟨w, hwmem, heq⟩ := List.mem_map.mp hmem
      unfold resolveRow at heq
      by_cases hid : (w.id == wid) = true
      · rw [if_pos hid] at heq
        right
        rw [← heq]
        exact ⟨rfl, approve_status_of_contains hc⟩
      · rw [if_neg hid] at heq
        left
        rw [← heq]
        exact hwmem
    · rw [if_neg hc] at hmem
      exact Or.inl hmem
  · intro happ
    have hc : (["approved", "rejected"].contains areq.status) = true := by
      rw [happ]; decide
    constructor
    · unfold approveWithdrawal
      rw [if_pos hc]
      rfl
    · intro w' hmem hwid
      unfold approveWithdrawal at hmem
      rw [if_pos hc] at hmem
      dsimp only at hmem
      obtain ⟨w, hwmem, heq⟩ := List.mem_map.mp hmem
      unfold resolveRow at heq
      by_cases hid : (w.id == wid) = true
      · rw [if_pos hid] at heq
        rw [← heq]
        exact ⟨happ ▸ rfl, rfl⟩
      · exfalso
        rw [if_neg hid] at heq
        apply hid
        rw [beq_iff_eq]
        rw [← heq] at hwid
        exact hwid

/-- Body `{status: 'approved'}` of a successful approval call. -/
def approveBody : ApproveReq :=
  { status := "approved", adminNotes := none, rejectionReason := none }

/-- Witness for claim C4: approving the pending withdrawal of user 1
succeeds, and the stored row ends `approved` with `processed_at` stamped. -/
theorem claim_C4_oneway_transitions_witness :
    (approveWithdrawal pendingStore 1 approveBody "pratheek" 7).1.isOk = true ∧
    ((approveWithdrawal pendingStore 1 approveBody "pratheek" 7).2.withdrawals.map
        (fun w => (w.status, w.processed_at))) = [("approved", some 7)] :=
  ⟨((claim_C4_oneway_transitions pendingStore 1 approveBody "pratheek" 7).2.1 rfl).1,
   by simp [approveWithdrawal, approveBody, pendingStore, pendingRow, resolveRow]⟩

/-- Rows whose id differs from the targeted one are untouched by the
resolution update. -/
theorem resolveRow_of_ne {wid : Nat} {st : String} {notes reason : Option String}
    {admin : String} {now : Nat} {w : Withdrawal} (h : w.id ≠ wid) :
    resolveRow wid st notes reason admin now w = w := by
  unfold resolveRow
  rw [if_neg (by simpa using h)]

/-- Rejecting one pending withdrawal removes exactly its amount from the
deduction sum, when row ids are unique. -/
theorem withdrawnSumList_reject (uid : Nat) (notes reason : Option String)
    (admin : String) (now : Nat) :
    ∀ (l : List Withdrawal) (w : Withdrawal),
      (l.map (fun x => x.id)).Nodup → w ∈ l → w.user_id = uid →
      w.status = "pending" →
      withdrawnSumList (l.map (resolveRow w.id "rejected" notes reason admin now)) uid
        = withdrawnSumList l uid - w.requested_amount := by
  intro l
  induction l with
  | nil => intro w _ hw; cases hw
  | cons x xs ih =>
    intro w hnd hw hu hs
    rw [List.map_cons] at hnd
    have hnd1 : x.id ∉ xs.map (fun y => y.id) := (List.nodup_cons.mp hnd).1
    have hnd2 : (xs.map (fun y => y.id)).Nodup := (List.nodup_cons.mp hnd).2
    rcases List.mem_cons.mp hw with rfl | hwxs
    · have hhead : resolveRow w.id "rejected" notes reason admin now w =
          { w with status := "rejected", admin_notes := notes
                   rejection_reason := reason, processed_at := some now
                   processed_by_admin := some admin } := by
        unfold resolveRow
        rw [if_pos (by simp)]
      have htail : xs.map (resolveRow w.id "rejected" notes reason admin now)
          = xs := by
        have hcongr : ∀ y ∈ xs,
            resolveRow w.id "rejected" notes reason admin now y = id y := by
          intro y hy
          exact resolveRow_of_ne fun hid =>
            hnd1 (hid ▸ List.mem_map_of_mem (fun z => z.id) hy)
        rw [List.map_congr_left hcongr, List.map_id]
      rw [List.map_cons, hhead, htail]
      unfold withdrawnSumList
      rw [List.filter_cons, List.filter_cons]
      have hdrop : deducts uid
          { w with status := "rejected", admin_notes := notes
                   rejection_reason := reason, processed_at := some now
                   processed_by_admin := some admin } = false := by
        simp [deducts]
      have hkeep : deducts uid w = true := by
        simp [deducts, hu, hs]
      rw [hdrop, hkeep]
      simp only [Bool.false_eq_true, not_false_eq_true, ite_false, ite_true,
        List.map_cons, List.sum_cons]
      exact (add_sub_cancel_left w.requested_amount _).symm
    · have hxid : x.id ≠ w.id := fun hid =>
        hnd1 (hid ▸ List.mem_map_of_mem (fun z => z.id) hwxs)
      rw [List.map_cons, resolveRow_of_ne hxid]
      unfold withdrawnSumList
      rw [List.filter_cons, List.filter_cons]
      by_cases hdx : deducts uid x = true
      · rw [hdx]
        simp only [ite_true, List.map_cons, List.sum_cons]
        have := ih w hnd2 hwxs hu hs
        unfold withdrawnSumList at this
        rw [this]
        ring
      · rw [Bool.not_eq_true] at hdx
        rw [hdx]
        simp only [Bool.false_eq_true, not_false_eq_true, ite_false]
        have := ih w hnd2 hwxs hu hs
        unfold withdrawnSumList at this
        rw [this]

/-- Claim C5: rejecting a pending withdrawal performs no explicit refund or
balance write.  The resolution endpoint leaves every other table and every
other withdrawal row unchanged, rewrites only the targeted row's status and
audit fields, and — because the balance computation excludes status
`rejected` — the recomputed available balance is exactly the rejected
amount greater than before. -/
theorem claim_C5_reject_restores_balance (s : Store) (w : Withdrawal)
    (areq : ApproveReq) (admin : String) (now uid : Nat)
    (hnd : (s.withdrawals.map (fun x => x.id)).Nodup)
    (hw : w ∈ s.withdrawals) (hu : w.user_id = uid) (hp : w.status = "pending")
    (hreq : areq.status = "rejected") :
    ((approveWithdrawal s w.id areq admin now).2.referral_links = s.referral_links ∧
     (approveWithdrawal s w.id areq admin now).2.referrals = s.referrals ∧
     (approveWithdrawal s w.id areq admin now).2.adjustments = s.adjustments) ∧
    specAvailableBalance (approveWithdrawal s w.id areq admin now).2 uid
      = specAvailableBalance s uid + w.requested_amount ∧
    (∀ x ∈ s.withdrawals, x.id ≠ w.id →
      x ∈ (approveWithdrawal s w.id areq admin now).2.withdrawals) ∧
    (∀ x ∈ (approveWithdrawal s w.id areq admin now).2.withdrawals, x.id = w.id →
      x.user_id = w.user_id ∧ x.operator = w.operator ∧
      x.requested_amount = w.requested_amount ∧
      x.requested_at = w.requested_at ∧ x.status = "rejected") := by
  have hc : (["approved", "rejected"].contains areq.status) = true := by
    rw [hreq]; decide
  unfold approveWithdrawal
  rw [if_pos hc, hreq]
  dsimp only
  refine ⟨⟨rfl, rfl, rfl⟩, ?_, ?_, ?_⟩
  · show specLifetimeEarnings s uid -
        withdrawnSumList (s.withdrawals.map
          (resolveRow w.id "rejected" areq.adminNotes areq.rejectionReason admin now)) uid
      = specLifetimeEarnings s uid - withdrawnSumList s.withdrawals uid
        + w.requested_amount
    have hW := withdrawnSumList_reject uid areq.adminNotes areq.rejectionReason
      admin now s.withdrawals w hnd hw hu hp
    rw [hW]
    ring
  · intro x hx hne
    exact List.mem_map.mpr ⟨x, hx, by rw [resolveRow_of_ne hne]⟩
  · intro x hx hxid
    obtain ⟨y, hy, heq⟩ := List.mem_map.mp hx
    by_cases hid : (y.id == w.id) = true
    · have hyw : y = w :=
        List.inj_on_of_nodup_map hnd hy hw (by simpa using hid)
      unfold resolveRow at heq
      rw [if_pos hid] at heq
      rw [← heq, hyw]
      exact ⟨rfl, rfl, rfl, rfl, rfl⟩
    · exfalso
      rw [resolveRow_of_ne (by simpa using hid)] at heq
      rw [← heq] at hxid
      exact (by simpa using hid : y.id ≠ w.id) hxid

/-- Body `{status: 'rejected'}` of a rejection call. -/
def rejectBody : ApproveReq :=
  { status := "rejected", adminNotes := none, rejectionReason := some "declined" }

/-- Witness for claim C5: rejecting user 1's 300-unit pending withdrawal
raises the recomputed spec balance by exactly 300. -/
theorem claim_C5_reject_restores_balance_witness :
    specAvailableBalance (approveWithdrawal pendingStore 1 rejectBody "pratheek" 9).2 1
      = specAvailableBalance pendingStore 1 + 300 := by
  have h := (claim_C5_reject_restores_balance pendingStore pendingRow rejectBody
      "pratheek" 9 1 (by simp [pendingStore, pendingRow]) (by simp [pendingStore])
      rfl rfl rfl).2.1
  simpa [pendingRow] using h

/-- Two-decimal print of 300: the scenario's expected `totalEarnings`. -/
theorem toFixed2_three_hundred : toFixed2 300 = "300.00" := by
  rw [toFixed2_of_floor (n := 30000) (by norm_num)
    (ratFloor_eq (by norm_num) (by norm_num))]
  rfl

/-- Two-decimal print of 0: the scenario's expected `remainingBalance`. -/
theorem toFixed2_zero : toFixed2 0 = "0.00" := by
  rw [toFixed2_of_floor (n := 0) (by norm_num)
    (ratFloor_eq (by norm_num) (by norm_num))]
  rfl

/-- Store of the end-to-end scenario: user 1 owns one Airtel referral link
with exactly 3 approved referrals, and has no withdrawals. -/
def s300 : Store :=
  { referral_links := [{ id := 1, user_id := 1, operator := "Airtel" }]
    referrals := [{ id := 1, referral_link_id := 1, status := "approved" },
                  { id := 2, referral_link_id := 1, status := "approved" },
                  { id := 3, referral_link_id := 1, status := "approved" }]
    withdrawals := []
    adjustments := [] }

/-- First scenario request: withdraw 300 units from the Airtel earnings. -/
def rw300 : RWRequest :=
  { operator := "Airtel", requestedAmount := some 300, uid := some 1 }

/-- Second scenario request, for an arbitrary amount. -/
def rwAfter (a : Rat) : RWRequest :=
  { operator := "Airtel", requestedAmount := some a, uid := some 1 }

/-- The row the first scenario request inserts. -/
def w300 : Withdrawal := insertedRow rw300 1 10 300

/-- Store state after the first scenario request. -/
def s301 : Store := { s300 with withdrawals := [w300] }

/-- The scenario user's available balance starts at 300. -/
theorem rwAvailableBalance_s300 : rwAvailableBalance s300 1 = 300 := by
  simp [rwAvailableBalance, totalEarnedRW, totalWithdrawnQ, withdrawnSumList,
    userLinks, linkCaseSum, referralsOf, s300]
  norm_num

/-- Full evaluation of the first scenario request: it succeeds, reports the
remaining balance `toFixed2 0`, and appends the pending row. -/
theorem rw300_eval :
    requestWithdrawal s300 rw300 1 10 = (.ok w300 (toFixed2 0), s301) := by
  unfold requestWithdrawal
  dsimp only [rw300, Option.getD_some]
  rw [if_neg (by decide)]
  rw [if_neg (by norm_num : ¬ (300 : Rat) ≤ 0)]
  rw [if_neg (by simp [hasPendingWithdrawal, s300])]
  rw [rwAvailableBalance_s300]
  rw [if_neg (by norm_num : ¬ (300 : Rat) < 300)]
  norm_num [w300, s301, insertedRow, rw300, s300]

/-- A second request while the scenario withdrawal is pending hits the
duplicate-pending rejection, whatever positive amount is asked. -/
theorem second_request_pending (a : Rat) (ha : 0 < a) :
    requestWithdrawal s301 (rwAfter a) 2 11 =
      (.error 400 "You already have a pending withdrawal request. Please wait for it to be processed.",
       s301) := by
  unfold requestWithdrawal
  dsimp only [rwAfter, Option.getD_some]
  rw [if_neg (by decide)]
  rw [if_neg (not_le.mpr ha)]
  rw [if_pos (by simp [hasPendingWithdrawal, s301, s300, w300, insertedRow, rw300])]

/-- Dashboard output of the scenario store: three approved Airtel
referrals report as total earnings `300.00`. -/
theorem dashboard_s300 : (dashboard s300 1).totalEarnings = "300.00" := by
  show toFixed2 (dashboardTotalQ s300 1) = "300.00"
  have h : dashboardTotalQ s300 1 = 300 := by
    rw [dashboardTotalQ_eq]
    simp [totalEarnedRW, userLinks, linkCaseSum, referralsOf, s300]
    norm_num
  rw [h, toFixed2_three_hundred]

/-- Claim C6, counterexample: running the claimed scenario, the dashboard
does return `totalEarnings "300.00"` and the 300-unit request does succeed
with `remainingBalance "0.00"`, but the second request is rejected with the
duplicate-pending conflict message — not an insufficient-balance error
(which at this state would read `Insufficient balance. Available: ₹0.00`). -/
theorem claim_C6_counterexample :
    (dashboard s300 1).totalEarnings = "300.00" ∧
    (requestWithdrawal s300 rw300 1 10).1 = .ok w300 "0.00" ∧
    (requestWithdrawal (requestWithdrawal s300 rw300 1 10).2 (rwAfter 50) 2 11).1
      = .error 400 "You already have a pending withdrawal request. Please wait for it to be processed." ∧
    "You already have a pending withdrawal request. Please wait for it to be processed."
      ≠ "Insufficient balance. Available: ₹0.00" := by
  refine ⟨dashboard_s300, ?_, ?_, by decide⟩
  · rw [rw300_eval, toFixed2_zero]
  · rw [rw300_eval]
    show (requestWithdrawal s301 (rwAfter 50) 2 11).1 = _
    rw [second_request_pending 50 (by norm_num)]

/-- Claim C6 (amended): for a user with exactly 3 approved Airtel referrals
and no withdrawals, the dashboard returns `totalEarnings "300.00"`; a
request-withdrawal of 300 Airtel units succeeds and returns
`remainingBalance "0.00"`; after that, a second request for any positive
amount by the same user fails — with the duplicate-pending conflict error
(the pending check runs before the balance check), and inserts no row. -/
theorem claim_C6_scenario (a : Rat) (ha : 0 < a) :
    (dashboard s300 1).totalEarnings = "300.00" ∧
    (requestWithdrawal s300 rw300 1 10).1 = .ok w300 "0.00" ∧
    (requestWithdrawal (requestWithdrawal s300 rw300 1 10).2 (rwAfter a) 2 11).1
      = .error 400 "You already have a pending withdrawal request. Please wait for it to be processed." ∧
    (requestWithdrawal (requestWithdrawal s300 rw300 1 10).2 (rwAfter a) 2 11).2
      = (requestWithdrawal s300 rw300 1 10).2 := by
  refine ⟨dashboard_s300, ?_, ?_, ?_⟩
  · rw [rw300_eval, toFixed2_zero]
  · rw [rw300_eval]
    show (requestWithdrawal s301 (rwAfter a) 2 11).1 = _
    rw [second_request_pending a ha]
  · rw [rw300_eval]
    show (requestWithdrawal s301 (rwAfter a) 2 11).2 = s301
    rw [second_request_pending a ha]

/-- Witness for the amended claim C6, at second amount 50. -/
theorem claim_C6_scenario_witness :
    (dashboard s300 1).totalEarnings = "300.00" ∧
    (requestWithdrawal s300 rw300 1 10).1 = .ok w300 "0.00" ∧
    (requestWithdrawal (requestWithdrawal s300 rw300 1 10).2 (rwAfter 50) 2 11).1
      = .error 400 "You already have a pending withdrawal request. Please wait for it to be processed." ∧
    (requestWithdrawal (requestWithdrawal s300 rw300 1 10).2 (rwAfter 50) 2 11).2
      = (requestWithdrawal s300 rw300 1 10).2 :=
  claim_C6_scenario 50 (by norm_num)

/-- Store exhibiting a negative reported figure: one airtel link, no
referrals, and a single −50 manual adjustment. -/
def negAdjStore : Store :=
  { referral_links := [{ id := 1, user_id := 1, operator := "airtel" }]
    referrals := []
    withdrawals := []
    adjustments := [{ user_id := 1, amount := -50 }] }

/-- Claim C7, counterexample: with a −50 adjustment and no approved
referrals, the adjustments-variant dashboard reports −50 for every
operator — the per-operator earnings figure is not non-negative. -/
theorem claim_C7_counterexample :
    ((dashboard001 negAdjStore 1).map (fun r => r.total_amount))
      = [-50, -50, -50] ∧
    ¬ (0 : Rat) ≤ -50 := by
  constructor
  · simp [dashboard001, opRow001, adjustmentsSum, linkCaseSum, referralsOf,
      negAdjStore]
  · norm_num

/-- Claim C7 (amended): in the adjustments variant, the earnings figure
reported per operator equals 100 times the reported count of the user's
approved referrals for that operator plus the sum of the user's manual
adjustments; because adjustments are signed, the figure can be negative.
In the variant without adjustments, the per-operator figure equals 100
times the approved count and is non-negative. -/
theorem claim_C7_per_operator_formula (s : Store) (uid : Nat)
    (display lower : String) :
    (opRow001 s uid display lower).total_amount
      = 100 * ((opRow001 s uid display lower).approved_referrals_count : Rat)
        + adjustmentsSum s uid ∧
    (∀ row ∈ dashboardRows s uid,
      row.total_amount = 100 * (row.approved_referrals_count : Rat) ∧
      0 ≤ row.total_amount) := by
  constructor
  · unfold opRow001
    dsimp only
    rw [sum_caseSums_eq]
  · intro row hrow
    unfold dashboardRows at hrow
    obtain ⟨op, _, heq⟩ := List.mem_map.mp hrow
    rw [← heq]
    dsimp only
    rw [sum_caseSums_eq]
    exact ⟨rfl, mul_nonneg (by norm_num) (Nat.cast_nonneg _)⟩

/-- The single dashboard row of the scenario store. -/
def airtelRow : EarningsRow :=
  { operator := "Airtel", total_referrals := 3, approved_referrals_count := 3
    total_amount := 300 }

/-- Witness for claim C7: the formula instantiated at the −50 store, and
the no-adjustments dashboard row of the scenario store satisfying the
100-per-approval formula and non-negativity. -/
theorem claim_C7_per_operator_formula_witness :
    ((opRow001 negAdjStore 1 "Airtel" "airtel").total_amount
      = 100 * ((opRow001 negAdjStore 1 "Airtel" "airtel").approved_referrals_count : Rat)
        + adjustmentsSum negAdjStore 1) ∧
    (airtelRow.total_amount = 100 * (airtelRow.approved_referrals_count : Rat) ∧
      0 ≤ airtelRow.total_amount) := by
  constructor
  · exact (claim_C7_per_operator_formula negAdjStore 1 "Airtel" "airtel").1
  · apply (claim_C7_per_operator_formula s300 1 "Airtel" "airtel").2
    have hrows : dashboardRows s300 1 = [airtelRow] := by
      simp [dashboardRows, userLinks, linkCaseSum, linkApprovedCount,
        linkReferralCount, referralsOf, s300, airtelRow,
        List.dedup_cons_of_not_mem]
      norm_num
    rw [hrows]
    exact List.mem_singleton.mpr rfl

/-- Request naming an operator outside the known enum. -/
def bogusReq : RWRequest :=
  { operator := "Bogus", requestedAmount := some 50, uid := some 1 }

/-- Claim C8, counterexample: the strict endpoint accepts the request even
though `"Bogus"` matches no known operator enum value, and inserts a
withdrawal row carrying that operator — the operator is never validated
against the enum. -/
theorem claim_C8_counterexample :
    knownOperators.contains "Bogus" = false ∧
    (requestWithdrawal s300 bogusReq 1 10).1.isError = false ∧
    ((requestWithdrawal s300 bogusReq 1 10).2.withdrawals.map
        (fun w => w.operator)) = ["Bogus"] := by
  refine ⟨by decide, ?_, ?_⟩
  · unfold requestWithdrawal
    dsimp only [bogusReq, Option.getD_some]
    rw [if_neg (by decide), if_neg (by norm_num : ¬ (50 : Rat) ≤ 0),
      if_neg (by simp [hasPendingWithdrawal, s300]), rwAvailableBalance_s300,
      if_neg (by norm_num : ¬ (300 : Rat) < 50)]
    rfl
  · unfold requestWithdrawal
    dsimp only [bogusReq, Option.getD_some]
    rw [if_neg (by decide), if_neg (by norm_num : ¬ (50 : Rat) ≤ 0),
      if_neg (by simp [hasPendingWithdrawal, s300]), rwAvailableBalance_s300,
      if_neg (by norm_num : ¬ (300 : Rat) < 50)]
    simp [s300]

/-- Claim C8 (amended): the strict request-withdrawal endpoint validates
field presence and amount positivity before inserting — a falsy operator
or uid, or an amount that is missing, unparsable or non-positive, is
answered with a 400 error and no row is inserted — but the operator is
never checked against the known operator enum. -/
theorem claim_C8_validation (s : Store) (req : RWRequest) (newId now : Nat)
    (h : (strFalsy req.operator || natFalsy req.uid) = true ∨
         req.requestedAmount = none ∨
         ∃ a, req.requestedAmount = some a ∧ a ≤ 0) :
    ∃ msg, (requestWithdrawal s req newId now).1 = .error 400 msg ∧
      (requestWithdrawal s req newId now).2 = s := by
  unfold requestWithdrawal
  by_cases h1 : (strFalsy req.operator || natFalsy req.uid) = true
  · rw [if_pos h1]
    exact ⟨_, rfl, rfl⟩
  · rw [if_neg h1]
    rcases h with h | h | ⟨a, ha, hle⟩
    · exact absurd h h1
    · rw [h]
      exact ⟨_, rfl, rfl⟩
    · rw [ha]
      dsimp only
      rw [if_pos hle]
      exact ⟨_, rfl, rfl⟩

/-- Request with a missing (falsy) operator field. -/
def missingReq : RWRequest :=
  { operator := "", requestedAmount := some 10, uid := some 1 }

/-- Witness for the amended claim C8: a request with a missing operator is
answered 400 and the store is unchanged. -/
theorem claim_C8_validation_witness :
    ∃ msg, (requestWithdrawal emptyStore missingReq 1 0).1 = .error 400 msg ∧
      (requestWithdrawal emptyStore missingReq 1 0).2 = emptyStore :=
  claim_C8_validation emptyStore missingReq 1 0 (Or.inl (by decide))

/-- Character-list reading of string concatenation. -/
theorem strData_append (a b : String) : (a ++ b).data = a.data ++ b.data := rfl

/-- Newline counting distributes over concatenation. -/
theorem newlineCount_append (a b : String) :
    newlineCount (a ++ b) = newlineCount a + newlineCount b := by
  unfold newlineCount
  rw [strData_append, List.count_append]

/-- Comma-joining newline-free parts stays newline-free. -/
theorem newlineCount_joinSep_comma (l : List String)
    (h : ∀ x ∈ l, newlineCount x = 0) : newlineCount (joinSep "," l) = 0 := by
  induction l with
  | nil => rfl
  | cons x xs ih =>
    cases xs with
    | nil => exact h x (by simp)
    | cons y ys =>
      show newlineCount (x ++ "," ++ joinSep "," (y :: ys)) = 0
      rw [newlineCount_append, newlineCount_append,
        h x (by simp), ih (fun z hz => h z (List.mem_cons_of_mem x hz))]
      rfl

/-- Newline-joining `k` newline-free parts puts exactly `k - 1` newlines in
the result. -/
theorem newlineCount_joinSep_newline (l : List String) (hne : l ≠ [])
    (h : ∀ x ∈ l, newlineCount x = 0) :
    newlineCount (joinSep "\n" l) = l.length - 1 := by
  induction l with
  | nil => cases hne rfl
  | cons x xs ih =>
    cases xs with
    | nil => simpa using h x (by simp)
    | cons y ys =>
      show newlineCount (x ++ "\n" ++ joinSep "\n" (y :: ys)) = _
      rw [newlineCount_append, newlineCount_append, h x (by simp),
        ih (by simp) (fun z hz => h z (List.mem_cons_of_mem x hz))]
      have h1 : newlineCount "\n" = 1 := rfl
      rw [h1]
      simp [List.length_cons]
      omega

/-- Record whose single field value embeds a newline. -/
def nlRecord : DataRecord := [("a", JValue.str "x\ny")]

/-- Claim C9, counterexample: one record whose value holds a newline
serializes to three physical lines, not `N + 1 = 2` — embedded newlines
are not escaped, so the line-count claim fails as universally stated. -/
theorem claim_C9_counterexample :
    convertToCSV [nlRecord] = "a\nx\ny" ∧
    lineCount (convertToCSV [nlRecord]) = 3 ∧ (3 : Nat) ≠ 1 + 1 := by
  refine ⟨by decide, by decide, by decide⟩

/-- Claim C9 (amended): for every non-empty list of `N` uniform records
whose serialized header names and cell values are newline-free, the CSV
export produces exactly `N + 1` lines (embedded newlines are not escaped
and each would add a line); an empty selection is answered with the
explicit failure payload `No data to export` rather than a file. -/
theorem claim_C9_csv_export (first : DataRecord) (rest : List DataRecord)
    (filename : String)
    (hhead : ∀ k ∈ first.map (fun kv => kv.1), newlineCount k = 0)
    (hcell : ∀ r ∈ first :: rest, ∀ k ∈ first.map (fun kv => kv.1),
      newlineCount (cellString (lookupField r k)) = 0) :
    lineCount (convertToCSV (first :: rest)) = (first :: rest).length + 1 ∧
    exportEarnings [] filename = .failure "No data to export" := by
  constructor
  · have hall : ∀ part ∈ (joinSep "," (first.map (fun kv => kv.1)) ::
        (first :: rest).map (csvRow (first.map (fun kv => kv.1)))),
        newlineCount part = 0 := by
      intro part hpart
      rcases List.mem_cons.mp hpart with rfl | hp
      · exact newlineCount_joinSep_comma _ hhead
      · obtain ⟨r, hr, rfl⟩ := List.mem_map.mp hp
        unfold csvRow
        apply newlineCount_joinSep_comma
        intro cell hcellmem
        obtain ⟨k, hk, rfl⟩ := List.mem_map.mp hcellmem
        exact hcell r hr k hk
    unfold lineCount convertToCSV
    dsimp only
    rw [newlineCount_joinSep_newline _ (by simp) hall]
    simp [List.length_cons]
  · rfl

/-- First sample export record. -/
def rec1 : DataRecord := [("user_id", JValue.int 1), ("username", JValue.str "alice")]

/-- Second sample export record. -/
def rec2 : DataRecord := [("user_id", JValue.int 2), ("username", JValue.str "bob")]

/-- Witness for the amended claim C9: two uniform records export as three
lines, and the empty selection is an explicit failure. -/
theorem claim_C9_csv_export_witness :
    lineCount (convertToCSV [rec1, rec2]) = 3 ∧
    exportEarnings [] "withdrawals-export.csv" = .failure "No data to export" :=
  claim_C9_csv_export rec1 [rec2] "withdrawals-export.csv" (by decide) (by decide)

/-- Filtering a record down to a key set changes no lookup at those keys. -/
theorem lookupField_filter (r : DataRecord) (ks : List String) (k : String)
    (hk : k ∈ ks) :
    lookupField (r.filter (fun kv => ks.contains kv.1)) k = lookupField r k := by
  unfold lookupField
  rw [find?_filter_of_imp]
  intro kv hkv
  have : kv.1 = k := by simpa using hkv
  exact List.elem_iff.mpr (this ▸ hk)

/-- Dropping the fields outside the first record's key set changes no
emitted row. -/
theorem csvRow_filter (first : DataRecord) (r : DataRecord) :
    csvRow (first.map (fun kv => kv.1))
        (r.filter (fun kv => (first.map (fun kv => kv.1)).contains kv.1))
      = csvRow (first.map (fun kv => kv.1)) r := by
  unfold csvRow
  refine congrArg (joinSep ",") (List.map_congr_left ?_)
  intro k hk
  rw [lookupField_filter r _ k hk]

/-- Claim C10: the CSV serializer's column set is exactly the keys of the
first record — fields present only in later records are silently dropped
(filtering every record to the first record's keys leaves the output
unchanged) — a `null`/`undefined` cell serializes to the empty string, and
a string cell is wrapped in double quotes exactly when it contains a comma
(nothing else, in particular no quote or newline, is escaped). -/
theorem claim_C10_csv_serializer (first : DataRecord) (rest : List DataRecord) :
    csvHeaders (first :: rest) = first.map (fun kv => kv.1) ∧
    convertToCSV ((first :: rest).map
        (fun r => r.filter (fun kv => (first.map (fun kv => kv.1)).contains kv.1)))
      = convertToCSV (first :: rest) ∧
    cellString none = "" ∧
    cellString (some JValue.null) = "" ∧
    (∀ v : String, cellString (some (JValue.str v))
      = if v.data.contains ',' then "\"" ++ v ++ "\"" else v) := by
  refine ⟨rfl, ?_, rfl, rfl, fun v => rfl⟩
  have hfirst : List.filter
      (fun kv => (List.map (fun kv => kv.1) first).contains kv.1) first = first := by
    rw [List.filter_eq_self]
    intro kv hkv
    exact List.elem_iff.mpr (List.mem_map_of_mem _ hkv)
  rw [List.map_cons, hfirst]
  show joinSep "\n" (joinSep "," (first.map (fun kv => kv.1)) ::
      (first :: rest.map (fun r => r.filter
        (fun kv => (first.map (fun kv => kv.1)).contains kv.1))).map
          (csvRow (first.map (fun kv => kv.1))))
    = joinSep "\n" (joinSep "," (first.map (fun kv => kv.1)) ::
        (first :: rest).map (csvRow (first.map (fun kv => kv.1))))
  refine congrArg (joinSep "\n") ?_
  refine congrArg (List.cons _) ?_
  rw [List.map_cons, List.map_cons, List.map_map]
  refine congrArg (List.cons _) (List.map_congr_left ?_)
  intro r _
  exact csvRow_filter first r

end Earnings
